import Mathlib

/-!
Shallow embedding of the `typescript-lab` repository: the User
model/builder/factory example (`src/types/src/domain/user/*`, the builder
from `src/unnamed/part_001`) and the `scripts-manager` CLI embedded in
`src/types/src/index.ts`.
-/

set_option autoImplicit false

namespace TsLab

/-! ## User domain model (`src/types/src/domain/user/model.ts`) -/

/-- `Role` from model.ts: the union type `"user" | "admin" | "moderator"`. -/
inductive Role where
  | user
  | admin
  | moderator
deriving DecidableEq

/-- The string each `Role` member interpolates to in a template literal. -/
def Role.toStr : Role → String
  | .user => "user"
  | .admin => "admin"
  | .moderator => "moderator"

/-- `IUser` / `class User` from model.ts: fields `name`, `id`, `role`. -/
structure User where
  name : String
  id : Int
  role : Role
deriving DecidableEq

/-- `new User()`: the field initializers of `class User`
(`name = ""`, `id = 0`, `role = "user"`). -/
def User.new : User :=
  { name := "", id := 0, role := Role.user }

/-- `UserSerializer.serialize` from model.ts:
the template literal `User(id=${user.id}, name=${user.name}, role=${user.role})`. -/
def UserSerializer.serialize (u : User) : String :=
  "User(id=" ++ toString u.id ++ ", name=" ++ u.name ++ ", role=" ++ u.role.toStr ++ ")"

/-! ## Heap of user objects

In the TypeScript source, `User` instances are mutable objects reached by
reference: the builder stores a reference in its private `user` field and
`getInstance` returns that reference.  We model the object store as a heap
of `User` records addressed by `Nat`, with `next` the next fresh address. -/

structure Heap where
  next : Nat
  objs : Nat → User

/-- Dereference: read the user object at address `a`. -/
def Heap.read (h : Heap) (a : Nat) : User :=
  h.objs a

/-- Assignment through a reference: replace the object at address `a`. -/
def Heap.write (h : Heap) (a : Nat) (u : User) : Heap :=
  { h with objs := fun a' => if a' = a then u else h.objs a' }

/-- `new User()` as a heap effect: allocate a fresh object at a fresh
address. -/
def Heap.alloc (h : Heap) : Heap × Nat :=
  ({ next := h.next + 1,
     objs := fun a' => if a' = h.next then User.new else h.objs a' }, h.next)

/-! ## UserBuilder (`src/unnamed/part_001`)

`class UserBuilder` has one private field `user: IUser | undefined`,
modelled as an optional heap address.  Mutators throw
`Error("User not initialized")` when the field is still `undefined`;
throwing is modelled by `Except String`. -/

structure UserBuilder where
  user : Option Nat

/-- A freshly constructed `new UserBuilder()`: the `user` field is
`undefined`. -/
def UserBuilder.init : UserBuilder := ⟨none⟩

/-- `UserBuilder.build()`: `this.user = new User(); return this`. -/
def UserBuilder.build (hp : Heap) (_b : UserBuilder) : Heap × UserBuilder :=
  let (hp', a) := hp.alloc
  (hp', ⟨some a⟩)

/-- `UserBuilder.name(value)`: throw if `this.user` is undefined, else
`this.user.name = value; return this`. -/
def UserBuilder.name (value : String) (hp : Heap) (b : UserBuilder) :
    Except String (Heap × UserBuilder) :=
  match b.user with
  | none => .error "User not initialized"
  | some a => .ok (hp.write a { hp.read a with name := value }, b)

/-- `UserBuilder.id(value)`: throw if `this.user` is undefined, else
`this.user.id = value; return this`. -/
def UserBuilder.id (value : Int) (hp : Heap) (b : UserBuilder) :
    Except String (Heap × UserBuilder) :=
  match b.user with
  | none => .error "User not initialized"
  | some a => .ok (hp.write a { hp.read a with id := value }, b)

/-- `UserBuilder.role(value)`: throw if `this.user` is undefined, else
`this.user.role = value; return this`. -/
def UserBuilder.role (value : Role) (hp : Heap) (b : UserBuilder) :
    Except String (Heap × UserBuilder) :=
  match b.user with
  | none => .error "User not initialized"
  | some a => .ok (hp.write a { hp.read a with role := value }, b)

/-- `UserBuilder.getInstance()`: throw if `this.user` is undefined, else
return the stored reference. -/
def UserBuilder.getInstance (b : UserBuilder) : Except String Nat :=
  match b.user with
  | none => .error "User not initialized"
  | some a => .ok a

/-! ## UserFactory (`src/types/src/domain/user/factory.ts`)

The factory holds the builder it was constructed with; each method drives
that builder through `build`, `id`, `name`, `role`, `getInstance`.  The
builder state and heap are threaded explicitly. -/

/-- `UserFactory.user(id, name)`. -/
def UserFactory.user (hp : Heap) (b : UserBuilder) (i : Int) (nm : String) :
    Except String (Heap × UserBuilder × Nat) := do
  let (hp, b) := UserBuilder.build hp b
  let (hp, b) ← UserBuilder.id i hp b
  let (hp, b) ← UserBuilder.name nm hp b
  let (hp, b) ← UserBuilder.role Role.user hp b
  let a ← UserBuilder.getInstance b
  return (hp, b, a)

/-- `UserFactory.admin(id, name)`. -/
def UserFactory.admin (hp : Heap) (b : UserBuilder) (i : Int) (nm : String) :
    Except String (Heap × UserBuilder × Nat) := do
  let (hp, b) := UserBuilder.build hp b
  let (hp, b) ← UserBuilder.id i hp b
  let (hp, b) ← UserBuilder.name nm hp b
  let (hp, b) ← UserBuilder.role Role.admin hp b
  let a ← UserBuilder.getInstance b
  return (hp, b, a)

/-! ## JSON values and `JSON.stringify(v, null, 2)`

The scripts-manager CLI (second document inside `src/types/src/index.ts`)
reads `package.json` with `JSON.parse` and rewrites it with
`JSON.stringify(pkg, null, 2) + "\n"`.  JSON objects are modelled as
insertion-ordered association lists, matching JavaScript object
semantics. -/

inductive Json where
  | null
  | bool (b : Bool)
  | num (n : Int)
  | str (s : String)
  | arr (items : List Json)
  | obj (fields : List (String × Json))

/-- Lowercase hexadecimal digit, as produced by JSON string escaping. -/
def hexDigit (n : Nat) : Char :=
  if n < 10 then Char.ofNat (48 + n) else Char.ofNat (87 + n)

/-- JSON escaping of one character, per `JSON.stringify`. -/
def escapeChar (c : Char) : String :=
  if c = '"' then "\\\""
  else if c = '\\' then "\\\\"
  else if c = '\x08' then "\\b"
  else if c = '\x0c' then "\\f"
  else if c = '\n' then "\\n"
  else if c = '\r' then "\\r"
  else if c = '\t' then "\\t"
  else if c.toNat < 32 then
    "\\u00" ++ String.singleton (hexDigit (c.toNat / 16)) ++
      String.singleton (hexDigit (c.toNat % 16))
  else String.singleton c

/-- JSON string quoting, per `JSON.stringify`. -/
def quoteStr (s : String) : String :=
  "\"" ++ String.join (s.toList.map escapeChar) ++ "\""

/-- `d` levels of the two-space indentation unit passed as
`JSON.stringify`'s third argument. -/
def indentOf (d : Nat) : String :=
  String.join (List.replicate d "  ")

mutual

/-- `JSON.stringify(v, null, 2)` at nesting depth `d`. -/
def Json.stringify (d : Nat) : Json → String
  | .null => "null"
  | .bool true => "true"
  | .bool false => "false"
  | .num n => toString n
  | .str s => quoteStr s
  | .arr [] => "[]"
  | .arr (x :: xs) =>
      "[\n" ++ String.intercalate ",\n" (stringifyItems (d + 1) (x :: xs)) ++
        "\n" ++ indentOf d ++ "]"
  | .obj [] => "\x7b\x7d"
  | .obj (p :: ps) =>
      "\x7b\n" ++ String.intercalate ",\n" (stringifyFields (d + 1) (p :: ps)) ++
        "\n" ++ indentOf d ++ "\x7d"

/-- One indented line per array item. -/
def stringifyItems (d : Nat) : List Json → List String
  | [] => []
  | x :: xs => (indentOf d ++ Json.stringify d x) :: stringifyItems d xs

/-- One indented `"key": value` line per object field. -/
def stringifyFields (d : Nat) : List (String × Json) → List String
  | [] => []
  | (k, v) :: ps =>
      (indentOf d ++ quoteStr k ++ ": " ++ Json.stringify d v) ::
        stringifyFields d ps

end

/-! ## JavaScript object operations on the manifest -/

/-- Property read `o[k]` on a JavaScript object: first entry with key `k`
(JavaScript objects have unique keys), `none` for `undefined`. -/
def objGet (k : String) : List (String × Json) → Option Json
  | [] => none
  | (k', v) :: rest => if k' = k then some v else objGet k rest

/-- Property assignment `o[k] = v` on a JavaScript object: overwrite the
entry in place if the key is present, append it otherwise (insertion
order is preserved, as in JavaScript). -/
def objSet (k : String) (v : Json) : List (String × Json) → List (String × Json)
  | [] => [(k, v)]
  | (k', v') :: rest =>
      if k' = k then (k', v) :: rest else (k', v') :: objSet k v rest

/-- JavaScript truthiness of a JSON value (`undefined` is handled at the
`Option` level by the callers). -/
def jsTruthy : Json → Bool
  | .null => false
  | .bool b => b
  | .num n => n != 0
  | .str s => !s.isEmpty
  | .arr _ => true
  | .obj _ => true

/-- Truthiness test `!x` applied to an optional CLI argument: `undefined`
(a missing `process.argv` slot) and the empty string are falsy. -/
def falsyArg : Option String → Bool
  | none => true
  | some s => s.isEmpty

/-! ## scripts-manager CLI (`src/types/src/index.ts`, second document)

The manifest file is abstracted as `FileState`: missing, present but not
valid JSON, or a parsed JSON object (a package manifest is a JSON
object).  A CLI invocation is a pure function from the three
`process.argv` slots and the file state to an exit code, the content
written to `package.json` (if any), and the `console.log` /
`console.error` lines. -/

inductive FileState where
  | missing
  | invalid
  | valid (pkg : List (String × Json))

structure CliResult where
  exitCode : Nat
  written : Option String
  logs : List String
  errs : List String
deriving DecidableEq

/-- `fail(message)`: print `❌ message` to stderr and `process.exit(1)`. -/
def fail (message : String) : CliResult :=
  { exitCode := 1, written := none, logs := [], errs := ["❌ " ++ message] }

/-- `loadPackageJson()`: exit via `fail` when the file is missing or not
valid JSON, else return the parsed object. -/
def loadPackageJson : FileState → Except CliResult (List (String × Json))
  | .missing => .error (fail "package.json not found in the current directory.")
  | .invalid => .error (fail "package.json is not valid JSON.")
  | .valid pkg => .ok pkg

/-- `savePackageJson(pkg)`: the content written,
`JSON.stringify(pkg, null, 2) + "\n"`. -/
def savePackageJson (pkg : List (String × Json)) : String :=
  Json.stringify 0 (Json.obj pkg) ++ "\n"

/-- The manifest transformation of `clearScripts(pkg)`:
`pkg.scripts = {}`. -/
def clearScripts (pkg : List (String × Json)) : List (String × Json) :=
  objSet "scripts" (Json.obj []) pkg

/-- The manifest transformation of `addScript(pkg, name, command)`:
`if (!pkg.scripts) pkg.scripts = {}; pkg.scripts[name] = command`.
When `scripts` is a truthy non-object, the inner assignment on a
primitive is a silent no-op (the file is non-strict JavaScript); on an
array it sets a property `JSON.stringify` does not serialize. -/
def addScript (pkg : List (String × Json)) (name command : String) :
    List (String × Json) :=
  let pkg' :=
    match objGet "scripts" pkg with
    | none => objSet "scripts" (Json.obj []) pkg
    | some s => if jsTruthy s then pkg else objSet "scripts" (Json.obj []) pkg
  match objGet "scripts" pkg' with
  | some (.obj fs) => objSet "scripts" (Json.obj (objSet name (Json.str command) fs)) pkg'
  | _ => pkg'

/-- The usage text printed by the `default` branch of the CLI switch. -/
def usageText : String :=
  "\nUsage:\n  node scripts-manager.js clear\n  node scripts-manager.js add <scriptName> \"<command>\"\n\nExamples:\n  node scripts-manager.js clear\n  node scripts-manager.js add dev \"ts-node src/index.ts\"\n"

/-- The whole CLI run: destructure
`const [, , action, scriptName, scriptCommand] = process.argv`, call
`loadPackageJson()` (which exits on a missing or malformed file), then
dispatch on `action`. -/
def scriptsManager (action scriptName scriptCommand : Option String)
    (file : FileState) : CliResult :=
  match loadPackageJson file with
  | .error r => r
  | .ok pkg =>
    if action = some "clear" then
      { exitCode := 0, written := some (savePackageJson (clearScripts pkg)),
        logs := ["✅ All scripts cleared."], errs := [] }
    else if action = some "add" then
      if falsyArg scriptName || falsyArg scriptCommand then
        fail "Usage: add <scriptName> \"<command>\""
      else
        let nm := scriptName.getD ""
        let cmd := scriptCommand.getD ""
        { exitCode := 0, written := some (savePackageJson (addScript pkg nm cmd)),
          logs := ["✅ Script added: \"" ++ nm ++ "\": \"" ++ cmd ++ "\""],
          errs := [] }
    else
      { exitCode := 1, written := none, logs := [usageText], errs := [] }

/-- An object store with no allocations yet. -/
def Heap.empty : Heap := ⟨0, fun _ => User.new⟩

/-! ## Shared association-list lemmas -/

/-- Reading a key just assigned yields the assigned value. -/
theorem objGet_objSet_self (k : String) (v : Json) (l : List (String × Json)) :
    objGet k (objSet k v l) = some v := by
  induction l with
  | nil => simp [objSet, objGet]
  | cons p rest ih =>
      obtain ⟨k', v'⟩ := p
      by_cases h : k' = k <;> simp [objSet, objGet, h, ih]

/-- Assigning one key leaves every other key unchanged. -/
theorem objGet_objSet_ne (k kx : String) (v : Json) (l : List (String × Json))
    (h : kx ≠ k) : objGet kx (objSet k v l) = objGet kx l := by
  have h' : k ≠ kx := Ne.symm h
  induction l with
  | nil => simp [objSet, objGet, h']
  | cons p rest ih =>
      obtain ⟨k', v'⟩ := p
      by_cases hk : k' = k
      · subst hk
        simp [objSet, objGet, h']
      · simp [objSet, objGet, hk, ih]

/-- Two consecutive assignments to the same key collapse to the last one. -/
theorem objSet_objSet (k : String) (v1 v2 : Json) (l : List (String × Json)) :
    objSet k v2 (objSet k v1 l) = objSet k v2 l := by
  induction l with
  | nil => simp [objSet]
  | cons p rest ih =>
      obtain ⟨k', v'⟩ := p
      by_cases h : k' = k <;> simp [objSet, h, ih]

/-! ## Claims -/

/-- C1: for every integer id and string name, `UserFactory.user(id, name)`
returns a user whose `role` field is `"user"` and `UserFactory.admin(id,
name)` one whose `role` field is `"admin"`; in both cases the returned
user's `id` and `name` fields equal the arguments.  Stated over an
arbitrary heap and builder state. -/
theorem factory_user_admin_fields_correct (hp : Heap) (b : UserBuilder)
    (i : Int) (nm : String) :
    (∃ hp' b' a, UserFactory.user hp b i nm = .ok (hp', b', a) ∧
      hp'.read a = { name := nm, id := i, role := Role.user }) ∧
    (∃ hp' b' a, UserFactory.admin hp b i nm = .ok (hp', b', a) ∧
      hp'.read a = { name := nm, id := i, role := Role.admin }) := by
  constructor <;>
    · refine ⟨_, _, _, rfl, ?_⟩
      simp [Heap.read, Heap.write, Heap.alloc, User.new]

/-- C2: on a builder whose `user` field is still `undefined` (no `build()`
call yet), each of the three mutators `id`, `name`, `role` throws
`Error("User not initialized")`. -/
theorem builder_mutators_error_before_build (hp : Heap) (b : UserBuilder)
    (i : Int) (nm : String) (r : Role) (h : b.user = none) :
    UserBuilder.id i hp b = .error "User not initialized" ∧
    UserBuilder.name nm hp b = .error "User not initialized" ∧
    UserBuilder.role r hp b = .error "User not initialized" := by
  simp [UserBuilder.id, UserBuilder.name, UserBuilder.role, h]

/-- C2 witness: the freshly constructed builder has `user = undefined` and
all three mutators fail on it. -/
theorem builder_mutators_error_before_build_witness :
    UserBuilder.init.user = none ∧
    (UserBuilder.id 2 Heap.empty UserBuilder.init = .error "User not initialized" ∧
     UserBuilder.name "Murphy" Heap.empty UserBuilder.init = .error "User not initialized" ∧
     UserBuilder.role Role.user Heap.empty UserBuilder.init = .error "User not initialized") :=
  ⟨rfl, builder_mutators_error_before_build Heap.empty UserBuilder.init 2 "Murphy" Role.user rfl⟩

/-- C3 counterexample: an invocation whose action is neither `clear` nor
`add` but whose working directory has no `package.json` exits with status
1 without printing the usage message (it prints the `fail` message
instead), because `loadPackageJson()` runs before the dispatch switch. -/
theorem unknown_action_without_manifest_prints_no_usage :
    (some "status" ≠ (some "clear" : Option String)) ∧
    (some "status" ≠ (some "add" : Option String)) ∧
    (scriptsManager (some "status") none none FileState.missing).exitCode = 1 ∧
    usageText ∉ (scriptsManager (some "status") none none FileState.missing).logs ∧
    (scriptsManager (some "status") none none FileState.missing).errs =
      ["❌ package.json not found in the current directory."] := by
  decide

/-- C3 amended: provided `package.json` exists and parses as a JSON
object, every invocation whose action is neither `clear` nor `add`
prints the usage message and exits with status 1 (writing nothing). -/
theorem unknown_action_prints_usage_exit_one (a sn sc : Option String)
    (pkg : List (String × Json)) (h1 : a ≠ some "clear") (h2 : a ≠ some "add") :
    scriptsManager a sn sc (FileState.valid pkg) =
      { exitCode := 1, written := none, logs := [usageText], errs := [] } := by
  simp [scriptsManager, loadPackageJson, h1, h2]

/-- C3 amended witness: `status` on a loadable manifest prints usage and
exits 1. -/
theorem unknown_action_prints_usage_exit_one_witness :
    (some "status" ≠ (some "clear" : Option String)) ∧
    (some "status" ≠ (some "add" : Option String)) ∧
    scriptsManager (some "status") none none (FileState.valid []) =
      { exitCode := 1, written := none, logs := [usageText], errs := [] } :=
  ⟨by decide, by decide,
    unknown_action_prints_usage_exit_one (some "status") none none []
      (by decide) (by decide)⟩

/-- C4: `add` with no command argument (the script name slot may hold
anything, including nothing) exits with a non-zero status and writes
nothing, whatever the state of `package.json`. -/
theorem add_without_command_exits_nonzero_writes_nothing
    (sn : Option String) (f : FileState) :
    (scriptsManager (some "add") sn none f).exitCode ≠ 0 ∧
    (scriptsManager (some "add") sn none f).written = none := by
  cases f <;> simp [scriptsManager, loadPackageJson, fail, falsyArg]

/-- C5: `add foo "bar"` on a manifest without a `scripts` key yields
`scripts = {"foo": "bar"}`, and `clear` on any manifest yields
`scripts = {}`. -/
theorem add_foo_bar_and_clear_scripts_results
    (pkg pkg2 : List (String × Json)) (h : objGet "scripts" pkg = none) :
    objGet "scripts" (addScript pkg "foo" "bar") =
      some (Json.obj [("foo", Json.str "bar")]) ∧
    objGet "scripts" (clearScripts pkg2) = some (Json.obj []) := by
  constructor
  · simp [addScript, h, objGet_objSet_self, objSet]
  · simp [clearScripts, objGet_objSet_self]

/-- C5 witness: on the manifest `{"name": "demo"}` (no `scripts` key). -/
theorem add_foo_bar_and_clear_scripts_results_witness :
    objGet "scripts" [("name", Json.str "demo")] = none ∧
    (objGet "scripts" (addScript [("name", Json.str "demo")] "foo" "bar") =
       some (Json.obj [("foo", Json.str "bar")]) ∧
     objGet "scripts" (clearScripts [("name", Json.str "demo")]) =
       some (Json.obj [])) :=
  ⟨rfl, add_foo_bar_and_clear_scripts_results
    [("name", Json.str "demo")] [("name", Json.str "demo")] rfl⟩

/-- C6: on a well-formed manifest (its `scripts` value, when present, is
an object; `fs` names its entries, `[]` when absent), `add` rewrites the
`scripts` object to the old one with exactly the entry `nm` inserted or
overwritten: every other top-level key `k` and every other scripts entry
`k'` is unchanged. -/
theorem add_script_changes_exactly_one_entry
    (pkg fs : List (String × Json)) (nm cmd k k' : String)
    (h : objGet "scripts" pkg = none ∧ fs = [] ∨
         objGet "scripts" pkg = some (Json.obj fs))
    (hk : k ≠ "scripts") (hk' : k' ≠ nm) :
    objGet "scripts" (addScript pkg nm cmd) =
      some (Json.obj (objSet nm (Json.str cmd) fs)) ∧
    objGet k (addScript pkg nm cmd) = objGet k pkg ∧
    objGet nm (objSet nm (Json.str cmd) fs) = some (Json.str cmd) ∧
    objGet k' (objSet nm (Json.str cmd) fs) = objGet k' fs := by
  have e : addScript pkg nm cmd =
      objSet "scripts" (Json.obj (objSet nm (Json.str cmd) fs)) pkg := by
    rcases h with ⟨h1, h2⟩ | h1
    · subst h2
      simp [addScript, h1, objGet_objSet_self, objSet_objSet]
    · simp [addScript, h1, jsTruthy]
  refine ⟨?_, ?_, ?_, ?_⟩
  · rw [e]; exact objGet_objSet_self _ _ _
  · rw [e]; exact objGet_objSet_ne _ _ _ _ hk
  · exact objGet_objSet_self _ _ _
  · exact objGet_objSet_ne _ _ _ _ hk'

/-- C6 witness: `add build "tsc"` on
`{"name": "demo", "scripts": {"dev": "x"}}`, checking the keys `name`
and `dev`. -/
theorem add_script_changes_exactly_one_entry_witness :
    (objGet "scripts" [("name", Json.str "demo"), ("scripts", Json.obj [("dev", Json.str "x")])]
        = none ∧ [("dev", Json.str "x")] = ([] : List (String × Json)) ∨
      objGet "scripts" [("name", Json.str "demo"), ("scripts", Json.obj [("dev", Json.str "x")])]
        = some (Json.obj [("dev", Json.str "x")])) ∧
    ("name" ≠ "scripts") ∧ ("dev" ≠ "build") ∧
    (objGet "scripts"
        (addScript [("name", Json.str "demo"), ("scripts", Json.obj [("dev", Json.str "x")])]
          "build" "tsc") =
       some (Json.obj (objSet "build" (Json.str "tsc") [("dev", Json.str "x")])) ∧
     objGet "name"
        (addScript [("name", Json.str "demo"), ("scripts", Json.obj [("dev", Json.str "x")])]
          "build" "tsc") =
       objGet "name" [("name", Json.str "demo"), ("scripts", Json.obj [("dev", Json.str "x")])] ∧
     objGet "build" (objSet "build" (Json.str "tsc") [("dev", Json.str "x")]) =
       some (Json.str "tsc") ∧
     objGet "dev" (objSet "build" (Json.str "tsc") [("dev", Json.str "x")]) =
       objGet "dev" [("dev", Json.str "x")]) :=
  ⟨Or.inr rfl, by decide, by decide,
    add_script_changes_exactly_one_entry
      [("name", Json.str "demo"), ("scripts", Json.obj [("dev", Json.str "x")])]
      [("dev", Json.str "x")] "build" "tsc" "name" "dev"
      (Or.inr rfl) (by decide) (by decide)⟩

/-- C7: serializing the user with id 2, name `Murphy`, role `user`
yields exactly `User(id=2, name=Murphy, role=user)`. -/
theorem serialize_murphy_literal :
    UserSerializer.serialize { name := "Murphy", id := 2, role := Role.user } =
      "User(id=2, name=Murphy, role=user)" := by
  decide

/-- C8: whenever a CLI invocation writes the manifest file, the written
content is exactly `JSON.stringify` of the manifest object with
two-space indentation followed by a single newline; the second conjunct
exhibits that format on a concrete manifest. -/
theorem written_manifest_two_space_indent_trailing_newline
    (a sn sc : Option String) (f : FileState) (s : String)
    (h : (scriptsManager a sn sc f).written = some s) :
    (∃ pkg, s = Json.stringify 0 (Json.obj pkg) ++ "\n") ∧
    savePackageJson [("scripts", Json.obj [("dev", Json.str "ts-node src/index.ts")])] =
      "\x7b\n  \"scripts\": \x7b\n    \"dev\": \"ts-node src/index.ts\"\n  \x7d\n\x7d\n" := by
  refine ⟨?_, by decide⟩
  cases f with
  | missing => simp [scriptsManager, loadPackageJson, fail] at h
  | invalid => simp [scriptsManager, loadPackageJson, fail] at h
  | valid pkg =>
      by_cases h1 : a = some "clear"
      · simp [scriptsManager, loadPackageJson, h1] at h
        exact ⟨clearScripts pkg, h.symm⟩
      · by_cases h2 : a = some "add"
        · by_cases h3 : (falsyArg sn || falsyArg sc) = true
          · simp [scriptsManager, loadPackageJson, h1, h2, h3, fail] at h
          · simp [scriptsManager, loadPackageJson, h1, h2, h3] at h
            exact ⟨addScript pkg (sn.getD "") (sc.getD ""), h.symm⟩
        · simp [scriptsManager, loadPackageJson, h1, h2] at h

/-- C8 witness: `clear` on the empty-object manifest writes
`{\x7d`-wrapped two-space-indented JSON with one trailing newline. -/
theorem written_manifest_two_space_indent_trailing_newline_witness :
    (scriptsManager (some "clear") none none (FileState.valid [])).written =
      some "\x7b\n  \"scripts\": \x7b\x7d\n\x7d\n" ∧
    ((∃ pkg, "\x7b\n  \"scripts\": \x7b\x7d\n\x7d\n" =
        Json.stringify 0 (Json.obj pkg) ++ "\n") ∧
     savePackageJson [("scripts", Json.obj [("dev", Json.str "ts-node src/index.ts")])] =
       "\x7b\n  \"scripts\": \x7b\n    \"dev\": \"ts-node src/index.ts\"\n  \x7d\n\x7d\n") :=
  ⟨rfl, written_manifest_two_space_indent_trailing_newline
    (some "clear") none none (FileState.valid [])
    "\x7b\n  \"scripts\": \x7b\x7d\n\x7d\n" rfl⟩

/-- C9: on a builder whose `user` field is still `undefined`,
`getInstance()` also throws `Error("User not initialized")`, exactly
like the mutators. -/
theorem builder_getInstance_error_before_build (b : UserBuilder)
    (h : b.user = none) :
    UserBuilder.getInstance b = .error "User not initialized" := by
  simp [UserBuilder.getInstance, h]

/-- C9 witness: the freshly constructed builder. -/
theorem builder_getInstance_error_before_build_witness :
    UserBuilder.init.user = none ∧
    UserBuilder.getInstance UserBuilder.init = .error "User not initialized" :=
  ⟨rfl, builder_getInstance_error_before_build UserBuilder.init rfl⟩

/-- C10: each factory call begins with `build()`, which allocates a fresh
user object, so a later factory call returns a distinct reference and
leaves the object returned by an earlier call untouched, whichever of
`user`/`admin` the earlier call was and whichever of `user`/`admin` the
later call is: the earlier reference still dereferences to the earlier
call's `{id: i1, name: n1}` with role `"user"` resp. `"admin"` (e.g.
`user(2, "Murphy")` then `admin(1, "Root")` leaves the first result
equal to `{id: 2, name: "Murphy", role: "user"}`). -/
theorem later_factory_call_preserves_earlier_user (hp : Heap)
    (b : UserBuilder) (i1 i2 : Int) (n1 n2 : String) :
    (∃ hp1 b1 a1 hp2 b2 a2,
      UserFactory.user hp b i1 n1 = .ok (hp1, b1, a1) ∧
      UserFactory.admin hp1 b1 i2 n2 = .ok (hp2, b2, a2) ∧
      a2 ≠ a1 ∧
      hp2.read a1 = { name := n1, id := i1, role := Role.user }) ∧
    (∃ hp1 b1 a1 hp2 b2 a2,
      UserFactory.user hp b i1 n1 = .ok (hp1, b1, a1) ∧
      UserFactory.user hp1 b1 i2 n2 = .ok (hp2, b2, a2) ∧
      a2 ≠ a1 ∧
      hp2.read a1 = { name := n1, id := i1, role := Role.user }) ∧
    (∃ hp1 b1 a1 hp2 b2 a2,
      UserFactory.admin hp b i1 n1 = .ok (hp1, b1, a1) ∧
      UserFactory.user hp1 b1 i2 n2 = .ok (hp2, b2, a2) ∧
      a2 ≠ a1 ∧
      hp2.read a1 = { name := n1, id := i1, role := Role.admin }) ∧
    (∃ hp1 b1 a1 hp2 b2 a2,
      UserFactory.admin hp b i1 n1 = .ok (hp1, b1, a1) ∧
      UserFactory.admin hp1 b1 i2 n2 = .ok (hp2, b2, a2) ∧
      a2 ≠ a1 ∧
      hp2.read a1 = { name := n1, id := i1, role := Role.admin }) := by
  refine ⟨?_, ?_, ?_, ?_⟩ <;>
    · refine ⟨_, _, _, _, _, _, rfl, rfl, ?_, ?_⟩
      · simp [UserFactory.user, UserFactory.admin, UserBuilder.build, Heap.alloc,
          UserBuilder.id, UserBuilder.name, UserBuilder.role,
          UserBuilder.getInstance, Heap.write]
      · simp [UserFactory.user, UserFactory.admin, UserBuilder.build, Heap.alloc,
          UserBuilder.id, UserBuilder.name, UserBuilder.role,
          UserBuilder.getInstance, Heap.read, Heap.write, User.new]

end TsLab
